import Mathlib

/-!
Verification of the fashion market contract
(programs/fashion_market_contract/src/lib.rs), an escrow-backed NFT
marketplace with three instructions: `list_nft`, `remove_listed_nft` and
`buy_nft`.

The embedding models the on-chain state (token accounts, mints, listing
records, lamport balances) as finite association lists keyed by addresses
(`Nat`), the SPL-token and system-program transfer primitives as
`Except`-valued state transformers, and each instruction as its Anchor
account validation (the `#[derive(Accounts)]` constraints, checked in
declaration order) followed by the handler body.  An `Except.error` result
models the all-or-nothing abort of the enclosing transaction: no state
change persists.
-/

namespace FashionMarket

abbrev Pubkey := Nat

deriving instance DecidableEq for Except

/-- lib.rs line 94: `const LAMPORTS_PER_SOL: u64 = 1_000_000_000`. -/
def LAMPORTS_PER_SOL : Nat := 1000000000

def U64MOD : Nat := 2 ^ 64

/-- lib.rs line 98: `listing.price * LAMPORTS_PER_SOL`, a u64 multiplication
with no overflow check; modelled as wrapping arithmetic modulo 2^64. -/
def lamportsAmount (price : Nat) : Nat := price * LAMPORTS_PER_SOL % U64MOD

/-- lib.rs lines 236-242: the `Listing` account data. -/
structure Listing where
  seller : Pubkey
  price : Nat
  mint : Pubkey
  is_active : Bool
deriving DecidableEq, Repr

/-- lib.rs lines 244-248: the program's custom error enum; its sole variant
is `InactiveListing`. -/
inductive ErrorCode where
  | inactiveListing
deriving DecidableEq, Repr

/-- Every error a call can abort with: the program's own `ErrorCode`,
Anchor account-validation errors, and errors of the token / system
programs (the spec's section 6 collaborators). -/
inductive Err where
  | program (e : ErrorCode)
  | accountNotFound
  | alreadyInUse
  | constraintHasOne
  | constraintRaw
  | constraintSeeds
  | constraintTokenMint
  | constraintTokenOwner
  | insufficientFunds
  | insufficientLamports
  | mintMismatchToken
  | decimalsMismatch
  | ownerMismatch
  | missingSignature
deriving DecidableEq, Repr

/-- An SPL token account: its mint, balance, and owner (authority). -/
structure TokenAccount where
  mint : Pubkey
  amount : Nat
  owner : Pubkey
deriving DecidableEq, Repr

/-- Association-list lookup by address. -/
def lookupA {α : Type} : List (Nat × α) → Nat → Option α
  | [], _ => none
  | (k, v) :: rest, k' => if k = k' then some v else lookupA rest k'

/-- Association-list update (replace the first binding, or append). -/
def updA {α : Type} : List (Nat × α) → Nat → α → List (Nat × α)
  | [], k, v => [(k, v)]
  | (k₀, v₀) :: rest, k, v =>
      if k₀ = k then (k, v) :: rest else (k₀, v₀) :: updA rest k v

/-- Association-list deletion of every binding of a key. -/
def delA {α : Type} : List (Nat × α) → Nat → List (Nat × α)
  | [], _ => []
  | (k₀, v₀) :: rest, k =>
      if k₀ = k then delA rest k else (k₀, v₀) :: delA rest k

/-- The ledger state the program reads and writes: token accounts, mint
decimals, listing records and native lamport balances, all keyed by
address. -/
structure State where
  tokenAccounts : List (Pubkey × TokenAccount)
  mintDecimals : List (Pubkey × Nat)
  listings : List (Pubkey × Listing)
  lamports : List (Pubkey × Nat)
deriving DecidableEq, Repr

/-- Native balance of an address (absent accounts hold 0 lamports). -/
def lamportsOf (st : State) (k : Pubkey) : Nat := (lookupA st.lamports k).getD 0

/-- Ledger address derivation for the vault PDA with seeds
`[PREFIX, b"vault", mint, [bump]]` (lib.rs lines 58-63, 110-115, 161, 188,
216).  `PREFIX` and `b"vault"` are fixed, so the address is a function of
the mint and the bump alone; the derivation is deterministic and injective
in `(mint, bump)`, modelled with the Cantor-style pairing function. -/
def vaultPda (mint bump : Nat) : Pubkey := Nat.pair mint bump

/-- The canonical bump returned by `find_program_address` for the vault
seeds; this is the value Anchor's `bump` constraint recomputes and exposes
as `ctx.bumps.vault`. -/
def canonicalBump (mint : Nat) : Nat := mint % 256

/-- SPL-token transfer: moves `amount` units from `src` to `dst`.  Fails
when either account is missing, the mints differ, the source balance is
insufficient, the authority is not the source owner, or the authority has
not signed (for a PDA, the runtime re-derives the address from the
supplied seeds; only that derived address counts as signed). -/
def tokenTransfer (st : State) (src dst authority amount : Nat)
    (signers : List Pubkey) : Except Err State :=
  match lookupA st.tokenAccounts src with
  | none => .error .accountNotFound
  | some sa =>
    match lookupA st.tokenAccounts dst with
    | none => .error .accountNotFound
    | some da =>
      if sa.mint ≠ da.mint then .error .mintMismatchToken
      else if sa.amount < amount then .error .insufficientFunds
      else if authority ≠ sa.owner then .error .ownerMismatch
      else if authority ∉ signers then .error .missingSignature
      else
        let ta := updA st.tokenAccounts src { sa with amount := sa.amount - amount }
        let da₁ := (lookupA ta dst).getD da
        .ok { st with tokenAccounts := updA ta dst { da₁ with amount := da₁.amount + amount } }

/-- `spl_token_2022::instruction::transfer_checked` (lib.rs lines 22-31):
a token transfer that additionally checks the supplied mint address and
decimals against the source account's mint. -/
def tokenTransferChecked (st : State) (src mintArg dst authority amount decimals : Nat)
    (signers : List Pubkey) : Except Err State :=
  match lookupA st.tokenAccounts src with
  | none => .error .accountNotFound
  | some sa =>
    if sa.mint ≠ mintArg then .error .mintMismatchToken
    else
      match lookupA st.mintDecimals mintArg with
      | none => .error .accountNotFound
      | some d =>
        if d ≠ decimals then .error .decimalsMismatch
        else tokenTransfer st src dst authority amount signers

/-- `system_instruction::transfer` (lib.rs lines 95-99): debit `src`,
credit `dst`; fails on insufficient lamports. -/
def systemTransfer (st : State) (src dst amount : Nat) : Except Err State :=
  if lamportsOf st src < amount then .error .insufficientLamports
  else
    let st₁ : State := { st with lamports := updA st.lamports src (lamportsOf st src - amount) }
    .ok { st₁ with lamports := updA st₁.lamports dst (lamportsOf st₁ dst + amount) }

/-- Rent-exempt deposit for the `Listing` account of space 80 + 8
(lib.rs line 143); the exact lamport value is irrelevant to the claims,
only that `close` returns exactly what `init` charged. -/
def LISTING_RENT : Nat := 88

/-- Rent-exempt deposit for a newly created vault token account. -/
def VAULT_RENT : Nat := 165

/-- The accounts of the `ListNFT` context (lib.rs lines 140-169). -/
structure ListNFTCtx where
  listing : Pubkey
  seller : Pubkey
  nft_account : Pubkey
  mint : Pubkey
  vault : Pubkey
deriving DecidableEq, Repr

/-- Account validation for `ListNFT` (lib.rs lines 140-169), in field
order: `init` of the listing paid by the seller, deserialization of
`nft_account`, the `mint.key() == nft_account.mint` constraint, and the
vault's seeds check plus `init_if_needed` with `token::mint = mint`,
`token::authority = vault`.  Returns the state after the inits together
with the nft account data. -/
def validateList (ctx : ListNFTCtx) (st : State) : Except Err (State × TokenAccount) :=
  match lookupA st.listings ctx.listing with
  | some _ => .error .alreadyInUse
  | none =>
    if lamportsOf st ctx.seller < LISTING_RENT then .error .insufficientLamports
    else
      let st₁ : State :=
        { st with lamports := updA st.lamports ctx.seller (lamportsOf st ctx.seller - LISTING_RENT) }
      match lookupA st₁.tokenAccounts ctx.nft_account with
      | none => .error .accountNotFound
      | some na =>
        match lookupA st₁.mintDecimals ctx.mint with
        | none => .error .accountNotFound
        | some _ =>
          if ctx.mint ≠ na.mint then .error .constraintRaw
          else if ctx.vault ≠ vaultPda na.mint (canonicalBump na.mint) then .error .constraintSeeds
          else
            match lookupA st₁.tokenAccounts ctx.vault with
            | some va =>
              if va.mint ≠ ctx.mint then .error .constraintTokenMint
              else if va.owner ≠ ctx.vault then .error .constraintTokenOwner
              else .ok (st₁, na)
            | none =>
              if lamportsOf st₁ ctx.seller < VAULT_RENT then .error .insufficientLamports
              else
                .ok ({ st₁ with
                        lamports := updA st₁.lamports ctx.seller (lamportsOf st₁ ctx.seller - VAULT_RENT),
                        tokenAccounts := updA st₁.tokenAccounts ctx.vault ⟨ctx.mint, 0, ctx.vault⟩ },
                     na)

/-- `list_nft` (lib.rs lines 20-53) composed with its account validation:
`transfer_checked` of 1 unit at 0 decimals from `nft_account` to the
vault signed by the seller, then initialization of the listing fields
`seller`, `mint`, `price`, `is_active := true`. -/
def list_nft (ctx : ListNFTCtx) (price : Nat) (st : State) : Except Err State :=
  match validateList ctx st with
  | .error e => .error e
  | .ok (st₁, _) =>
    match tokenTransferChecked st₁ ctx.nft_account ctx.mint ctx.vault ctx.seller 1 0 [ctx.seller] with
    | .error e => .error e
    | .ok st₂ =>
      .ok { st₂ with listings := updA st₂.listings ctx.listing ⟨ctx.seller, price, ctx.mint, true⟩ }

/-- The accounts of the `RemoveListedNFT` context (lib.rs lines 171-196). -/
structure RemoveCtx where
  seller : Pubkey
  nft_account : Pubkey
  listing : Pubkey
  mint : Pubkey
  vault : Pubkey
deriving DecidableEq, Repr

/-- Account validation for `RemoveListedNFT` (lib.rs lines 171-196), in
field order: `nft_account` deserialization, the listing's
`has_one = seller` then `constraint = nft_account.mint == listing.mint`,
the mint account and its `mint.key() == nft_account.mint` constraint, and
the vault's seeds check.  Returns the nft account data and the listing. -/
def validateRemove (ctx : RemoveCtx) (st : State) : Except Err (TokenAccount × Listing) :=
  match lookupA st.tokenAccounts ctx.nft_account with
  | none => .error .accountNotFound
  | some na =>
    match lookupA st.listings ctx.listing with
    | none => .error .accountNotFound
    | some l =>
      if l.seller ≠ ctx.seller then .error .constraintHasOne
      else if na.mint ≠ l.mint then .error .constraintRaw
      else
        match lookupA st.mintDecimals ctx.mint with
        | none => .error .accountNotFound
        | some _ =>
          if ctx.mint ≠ na.mint then .error .constraintRaw
          else if ctx.vault ≠ vaultPda na.mint (canonicalBump na.mint) then .error .constraintSeeds
          else
            match lookupA st.tokenAccounts ctx.vault with
            | none => .error .accountNotFound
            | some _ => .ok (na, l)

/-- `remove_listed_nft` (lib.rs lines 56-83) composed with its account
validation: a PDA-signed token transfer of the 1 unit from the vault back
to `nft_account`, signed with the canonical bump `ctx.bumps.vault`
(lib.rs line 62), then `close` of the listing returning its rent deposit
to the seller. -/
def remove_listed_nft (ctx : RemoveCtx) (st : State) : Except Err State :=
  match validateRemove ctx st with
  | .error e => .error e
  | .ok (na, _) =>
    match tokenTransfer st ctx.vault ctx.nft_account ctx.vault 1
        [vaultPda na.mint (canonicalBump na.mint)] with
    | .error e => .error e
    | .ok st₁ =>
      .ok { st₁ with
              listings := delA st₁.listings ctx.listing,
              lamports := updA st₁.lamports ctx.seller (lamportsOf st₁ ctx.seller + LISTING_RENT) }

/-- The accounts of the `BuyNFT` context (lib.rs lines 198-231).  Note
two absences faithful to the source: `seller` is a raw `AccountInfo`
with no constraint tying it to `listing.seller` (despite the field's own
doc comment), and `nft_account` carries no constraint tying its mint to
`listing.mint`. -/
structure BuyCtx where
  listing : Pubkey
  buyer : Pubkey
  seller : Pubkey
  nft_account : Pubkey
  vault : Pubkey
  buyer_token_account : Pubkey
  seller_token_account : Pubkey
deriving DecidableEq, Repr

/-- Account validation for `BuyNFT` (lib.rs lines 198-231), in field
order: the listing deserialization, `nft_account` deserialization, the
vault's seeds/bump check against the canonical derivation from
`nft_account.mint`, and deserialization of the two token accounts.
Returns the listing and the nft account data. -/
def validateBuy (ctx : BuyCtx) (st : State) : Except Err (Listing × TokenAccount) :=
  match lookupA st.listings ctx.listing with
  | none => .error .accountNotFound
  | some l =>
    match lookupA st.tokenAccounts ctx.nft_account with
    | none => .error .accountNotFound
    | some na =>
      if ctx.vault ≠ vaultPda na.mint (canonicalBump na.mint) then .error .constraintSeeds
      else
        match lookupA st.tokenAccounts ctx.vault with
        | none => .error .accountNotFound
        | some _ =>
          match lookupA st.tokenAccounts ctx.buyer_token_account with
          | none => .error .accountNotFound
          | some _ =>
            match lookupA st.tokenAccounts ctx.seller_token_account with
            | none => .error .accountNotFound
            | some _ => .ok (l, na)

/-- `buy_nft` (lib.rs lines 86-134) composed with its account validation:
the `require!(listing.is_active, InactiveListing)` check, the system
transfer of `listing.price * LAMPORTS_PER_SOL` lamports from the buyer to
the supplied `seller` account, the PDA-signed token transfer of the 1
unit from the vault to `buyer_token_account` whose signer seeds use the
caller-supplied `vault_bump` verbatim (lib.rs line 114), and finally
`listing.is_active := false`. -/
def buy_nft (vault_bump : Nat) (ctx : BuyCtx) (st : State) : Except Err State :=
  match validateBuy ctx st with
  | .error e => .error e
  | .ok (l, na) =>
    if l.is_active = false then .error (.program .inactiveListing)
    else
      match systemTransfer st ctx.buyer ctx.seller (lamportsAmount l.price) with
      | .error e => .error e
      | .ok st₁ =>
        match tokenTransfer st₁ ctx.vault ctx.buyer_token_account ctx.vault 1
            [vaultPda na.mint vault_bump] with
        | .error e => .error e
        | .ok st₂ =>
          .ok { st₂ with listings := updA st₂.listings ctx.listing { l with is_active := false } }

/-- Overwrite the `is_active` flag of the listing at address `a`, if one
exists; used to state that `remove_listed_nft` never reads this flag. -/
def setActive (st : State) (a : Pubkey) (b : Bool) : State :=
  match lookupA st.listings a with
  | none => st
  | some l => { st with listings := updA st.listings a { l with is_active := b } }

/-- The public operation surface: the three entry points. -/
inductive Op where
  | listOp (ctx : ListNFTCtx) (price : Nat)
  | removeOp (ctx : RemoveCtx)
  | buyOp (vault_bump : Nat) (ctx : BuyCtx)

/-- One atomically committed call of any of the three instructions. -/
def step (op : Op) (st : State) : Except Err State :=
  match op with
  | .listOp ctx price => list_nft ctx price st
  | .removeOp ctx => remove_listed_nft ctx st
  | .buyOp vault_bump ctx => buy_nft vault_bump ctx st

/-! ## Concrete ledgers used to exercise the theorems

Addresses: seller 5, buyer 7, listing record 4, seller's nft account 2,
buyer's token account 8, mint 3 whose canonical bump is `3 % 256 = 3` and
whose vault PDA is `vaultPda 3 3 = 15`. -/

/-- One active listing of mint 3 at price 10 by seller 5; the vault holds
the escrowed unit and buyer 7 holds exactly the price in lamports. -/
def stActiveW : State :=
  { tokenAccounts := [(2, ⟨3, 1, 5⟩), (15, ⟨3, 1, 15⟩), (8, ⟨3, 0, 7⟩)],
    mintDecimals := [(3, 0)],
    listings := [(4, ⟨5, 10, 3, true⟩)],
    lamports := [(7, 10000000000)] }

/-- The same ledger with the listing already flipped inactive. -/
def stInactiveW : State := { stActiveW with listings := [(4, ⟨5, 10, 3, false⟩)] }

/-- A well-formed buy context for `stActiveW`. -/
def buyCtxW : BuyCtx := ⟨4, 7, 5, 2, 15, 8, 8⟩

/-- A buy context identical to `buyCtxW` except that the unchecked
`seller` account is address 6 instead of the listing's recorded seller 5. -/
def buyWrongSellerCtx : BuyCtx := ⟨4, 7, 6, 2, 15, 8, 8⟩

/-- The ledger after running `buy_nft` with `buyWrongSellerCtx`. -/
def buyWrongSellerResult : State :=
  (buy_nft 3 buyWrongSellerCtx stActiveW).toOption.getD stActiveW

/-- A ledger with the active listing of mint 3 (escrowed in vault 15) and
a second, unrelated asset of mint 30 escrowed in its own vault
`vaultPda 30 30 = 960`; account 2 and the buyer's account 8 are token
accounts of mint 30. -/
def stTwoAssetsW : State :=
  { tokenAccounts := [(2, ⟨30, 1, 9⟩), (960, ⟨30, 1, 960⟩), (8, ⟨30, 0, 7⟩), (15, ⟨3, 1, 15⟩)],
    mintDecimals := [(3, 0), (30, 0)],
    listings := [(4, ⟨5, 10, 3, true⟩)],
    lamports := [(7, 10000000000)] }

/-- A buy context against the mint-3 listing whose `nft_account` is a
mint-30 token account, steering the vault derivation to mint 30's vault. -/
def buyForeignCtx : BuyCtx := ⟨4, 7, 5, 2, 960, 8, 8⟩

/-- The ledger after running `buy_nft` with `buyForeignCtx`. -/
def buyForeignResult : State :=
  (buy_nft 30 buyForeignCtx stTwoAssetsW).toOption.getD stTwoAssetsW

/-- A well-formed cancel context for `stActiveW` (signer 5 is the
recorded seller). -/
def removeCtxW : RemoveCtx := ⟨5, 2, 4, 3, 15⟩

/-- A fresh ledger before any listing: seller 1 holds one unit of mint 3
in account 2 and 300 lamports; no listing, no vault. -/
def stRoundW : State :=
  { tokenAccounts := [(2, ⟨3, 1, 1⟩)],
    mintDecimals := [(3, 0)],
    listings := [],
    lamports := [(1, 300)] }

/-! ## Association-list lemmas -/

theorem lookupA_updA_self {α : Type} (l : List (Nat × α)) (k : Nat) (v : α) :
    lookupA (updA l k v) k = some v := by
  induction l with
  | nil => simp [updA, lookupA]
  | cons p rest ih =>
    obtain ⟨a, b⟩ := p
    by_cases h : a = k
    · simp [updA, h, lookupA]
    · simp [updA, h, lookupA, ih]

theorem lookupA_updA_ne {α : Type} (l : List (Nat × α)) {k k' : Nat} (v : α)
    (h : k ≠ k') : lookupA (updA l k v) k' = lookupA l k' := by
  induction l with
  | nil => simp [updA, lookupA, h]
  | cons p rest ih =>
    obtain ⟨a, b⟩ := p
    by_cases ha : a = k
    · subst ha
      simp [updA, lookupA, h, ih]
    · simp [updA, lookupA, ha, ih]

theorem lookupA_delA_self {α : Type} (l : List (Nat × α)) (k : Nat) :
    lookupA (delA l k) k = none := by
  induction l with
  | nil => simp [delA, lookupA]
  | cons p rest ih =>
    obtain ⟨a, b⟩ := p
    by_cases h : a = k
    · simp [delA, h, ih]
    · simp [delA, lookupA, h, ih]

theorem lookupA_delA_ne {α : Type} (l : List (Nat × α)) {k k' : Nat}
    (h : k ≠ k') : lookupA (delA l k) k' = lookupA l k' := by
  induction l with
  | nil => simp [delA, lookupA]
  | cons p rest ih =>
    obtain ⟨a, b⟩ := p
    by_cases ha : a = k
    · subst ha
      simp [delA, lookupA, h, ih]
    · simp [delA, lookupA, ha, ih]

theorem delA_updA {α : Type} (l : List (Nat × α)) (k : Nat) (v : α) :
    delA (updA l k v) k = delA l k := by
  induction l with
  | nil => simp [updA, delA]
  | cons p rest ih =>
    obtain ⟨a, b⟩ := p
    by_cases h : a = k
    · simp [updA, delA, h]
    · simp [updA, delA, h, ih]

/-- The vault address derivation is injective in the mint and the bump. -/
theorem vaultPda_inj {m b m' b' : Nat} (h : vaultPda m b = vaultPda m' b') :
    m = m' ∧ b = b' := by
  have := Nat.pair_eq_pair.mp h
  exact this

/-! ## Inversion lemmas for the primitives and the account validators -/

theorem systemTransfer_ok_parts {st st' : State} {src dst amount : Nat}
    (h : systemTransfer st src dst amount = .ok st') :
    st'.listings = st.listings ∧ st'.tokenAccounts = st.tokenAccounts ∧
      st'.mintDecimals = st.mintDecimals := by
  unfold systemTransfer at h
  split at h
  · exact Except.noConfusion h
  · injection h with h
    subst h
    exact ⟨rfl, rfl, rfl⟩

theorem tokenTransfer_ok_parts {st st' : State} {src dst authority amount : Nat}
    {signers : List Pubkey}
    (h : tokenTransfer st src dst authority amount signers = .ok st') :
    st'.listings = st.listings ∧ st'.lamports = st.lamports ∧
      st'.mintDecimals = st.mintDecimals ∧ authority ∈ signers := by
  unfold tokenTransfer at h
  repeat' split at h
  all_goals (try (injection h with h))
  all_goals (try (subst h))
  all_goals simp_all

theorem validateBuy_ok_facts {ctx : BuyCtx} {st : State} {l : Listing}
    {na : TokenAccount} (h : validateBuy ctx st = .ok (l, na)) :
    lookupA st.listings ctx.listing = some l ∧
      lookupA st.tokenAccounts ctx.nft_account = some na ∧
      ctx.vault = vaultPda na.mint (canonicalBump na.mint) := by
  unfold validateBuy at h
  repeat' split at h
  all_goals simp_all

/-- Full decomposition of a successful `buy_nft` call into its validation,
its two transfers and the final listing update. -/
theorem buy_nft_ok_shape {vault_bump : Nat} {ctx : BuyCtx} {st st' : State}
    (h : buy_nft vault_bump ctx st = .ok st') :
    ∃ l na st₁ st₂,
      validateBuy ctx st = .ok (l, na) ∧ l.is_active = true ∧
      systemTransfer st ctx.buyer ctx.seller (lamportsAmount l.price) = .ok st₁ ∧
      tokenTransfer st₁ ctx.vault ctx.buyer_token_account ctx.vault 1
        [vaultPda na.mint vault_bump] = .ok st₂ ∧
      st' = { st₂ with
                listings := updA st₂.listings ctx.listing { l with is_active := false } } := by
  unfold buy_nft at h
  cases hv : validateBuy ctx st with
  | error e =>
    simp only [hv] at h
    exact Except.noConfusion h
  | ok p =>
    obtain ⟨l, na⟩ := p
    simp only [hv] at h
    by_cases hact : l.is_active = false
    · rw [if_pos hact] at h
      exact Except.noConfusion h
    · rw [if_neg hact] at h
      cases hs : systemTransfer st ctx.buyer ctx.seller (lamportsAmount l.price) with
      | error e =>
        simp only [hs] at h
        exact Except.noConfusion h
      | ok st₁ =>
        simp only [hs] at h
        cases ht : tokenTransfer st₁ ctx.vault ctx.buyer_token_account ctx.vault 1
            [vaultPda na.mint vault_bump] with
        | error e =>
          simp only [ht] at h
          exact Except.noConfusion h
        | ok st₂ =>
          simp only [ht] at h
          injection h with h
          exact ⟨l, na, st₁, st₂, rfl, by simpa using hact, hs, ht, h.symm⟩

/-! ## C9: the currency amount computation -/

/-- C9: in `buy_nft` the currency amount is `listing.price * 1_000_000_000`
in unchecked u64 arithmetic; for every price up to 18,446,744,073 the
computed amount is the exact product `price * 10^9`, and for every larger
u64 price the product exceeds u64 range, so the computed (wrapped) amount
differs from the exact product and the exact intended amount is never
transferred. -/
theorem buy_amount_exact_iff_no_overflow (price : Nat) (_hp : price < U64MOD) :
    (price ≤ 18446744073 → lamportsAmount price = price * 1000000000) ∧
    (18446744073 < price →
      U64MOD ≤ price * 1000000000 ∧ lamportsAmount price ≠ price * 1000000000) := by
  constructor
  · intro h
    unfold lamportsAmount LAMPORTS_PER_SOL U64MOD
    apply Nat.mod_eq_of_lt
    calc price * 1000000000 ≤ 18446744073 * 1000000000 := Nat.mul_le_mul_right _ h
    _ < 2 ^ 64 := by norm_num
  · intro h
    have h1 : U64MOD ≤ price * 1000000000 := by
      unfold U64MOD
      calc (2 : Nat) ^ 64 ≤ 18446744074 * 1000000000 := by norm_num
      _ ≤ price * 1000000000 := Nat.mul_le_mul_right _ h
    refine ⟨h1, ?_⟩
    have h2 : lamportsAmount price < U64MOD := by
      unfold lamportsAmount
      exact Nat.mod_lt _ (by unfold U64MOD; norm_num)
    omega

/-- Witness for C9 at price 10 (exact) and price 18,446,744,074
(overflowing). -/
theorem buy_amount_exact_iff_no_overflow_witness :
    lamportsAmount 10 = 10 * 1000000000 ∧
      (U64MOD ≤ 18446744074 * 1000000000 ∧
        lamportsAmount 18446744074 ≠ 18446744074 * 1000000000) :=
  ⟨(buy_amount_exact_iff_no_overflow 10 (by norm_num [U64MOD])).1 (by norm_num),
   (buy_amount_exact_iff_no_overflow 18446744074 (by norm_num [U64MOD])).2 (by norm_num)⟩

/-! ## C3: inactive listings cannot be bought; buy succeeds at most once -/

/-- C3: a buy whose accounts validate but whose listing has
`is_active = false` fails with the program's `InactiveListing` error (and,
the call aborting, produces no currency or asset movement); and after any
successful buy the listing is inactive, so a second validated buy against
the same listing always fails with `InactiveListing`. -/
theorem buy_fails_on_inactive_and_succeeds_at_most_once :
    (∀ (vault_bump : Nat) (ctx : BuyCtx) (st : State) (l : Listing) (na : TokenAccount),
      validateBuy ctx st = .ok (l, na) → l.is_active = false →
      buy_nft vault_bump ctx st = .error (.program .inactiveListing)) ∧
    (∀ (vault_bump : Nat) (ctx : BuyCtx) (st st₁ : State) (vb' : Nat) (ctx' : BuyCtx)
      (l' : Listing) (na' : TokenAccount),
      buy_nft vault_bump ctx st = .ok st₁ → ctx'.listing = ctx.listing →
      validateBuy ctx' st₁ = .ok (l', na') →
      buy_nft vb' ctx' st₁ = .error (.program .inactiveListing)) := by
  have part1 : ∀ (vault_bump : Nat) (ctx : BuyCtx) (st : State) (l : Listing) (na : TokenAccount),
      validateBuy ctx st = .ok (l, na) → l.is_active = false →
      buy_nft vault_bump ctx st = .error (.program .inactiveListing) := by
    intro vb ctx st l na hv hl
    unfold buy_nft
    simp only [hv]
    rw [if_pos hl]
  refine ⟨part1, ?_⟩
  intro vb ctx st st₁ vb' ctx' l' na' hbuy hsame hv'
  obtain ⟨l, na, stA, stB, hval, hact, hs, ht, hst⟩ := buy_nft_ok_shape hbuy
  have hlist : lookupA st₁.listings ctx.listing = some { l with is_active := false } := by
    rw [hst]
    exact lookupA_updA_self _ _ _
  have h1 := (validateBuy_ok_facts hv').1
  rw [hsame, hlist] at h1
  injection h1 with h1
  exact part1 vb' ctx' st₁ l' na' hv' (by rw [← h1])

/-- Witness for C3: in the concrete ledger, buying the inactive listing
fails with `InactiveListing`, and after a successful buy a second buy of
the same listing fails with `InactiveListing`. -/
theorem buy_fails_on_inactive_and_succeeds_at_most_once_witness :
    buy_nft 3 buyCtxW stInactiveW = .error (.program .inactiveListing) ∧
    buy_nft 3 buyCtxW ((buy_nft 3 buyCtxW stActiveW).toOption.getD stActiveW) =
      .error (.program .inactiveListing) :=
  ⟨buy_fails_on_inactive_and_succeeds_at_most_once.1 3 buyCtxW stInactiveW
      ⟨5, 10, 3, false⟩ ⟨3, 1, 5⟩ (by decide) (by decide),
   buy_fails_on_inactive_and_succeeds_at_most_once.2 3 buyCtxW stActiveW _ 3 buyCtxW
      ⟨5, 10, 3, false⟩ ⟨3, 1, 5⟩ (by decide) rfl (by decide)⟩

/-! ## C1: where the currency goes in `buy_nft` -/

/-- C1 (code bug, lib.rs lines 206-208 with 95-99): the `seller` account
of `BuyNFT` carries no constraint tying it to `listing.seller`, contrary
to its own doc comment, so `buy_nft` transfers the price to whatever
account the caller supplies.  Here the listing's recorded seller is 5,
the caller passes 6, the buy succeeds, account 5's balance stays 0 and
account 6 receives the full `price * LAMPORTS_PER_SOL`. -/
theorem buy_pays_caller_chosen_account_not_listing_seller :
    (buy_nft 3 buyWrongSellerCtx stActiveW).isOk = true ∧
    (lookupA stActiveW.listings 4).map Listing.seller = some 5 ∧
    buyWrongSellerCtx.seller = 6 ∧
    lamportsOf stActiveW 5 = 0 ∧
    lamportsOf buyWrongSellerResult 5 = 0 ∧
    lamportsOf buyWrongSellerResult 6 = 10 * LAMPORTS_PER_SOL := by decide

/-! ## C2: which asset `buy_nft` delivers -/

/-- C2 (code bug, lib.rs lines 109-128 with 210-219): `BuyNFT` never
checks `nft_account.mint` against `listing.mint`, and both the vault
derivation and the outbound transfer follow the caller-supplied
`nft_account`.  Buying the mint-3 listing with a mint-30 `nft_account`
succeeds and moves one unit of mint 30 out of mint 30's vault, while the
listed asset stays in its vault. -/
theorem buy_moves_foreign_asset_not_listing_mint :
    (buy_nft 30 buyForeignCtx stTwoAssetsW).isOk = true ∧
    (lookupA stTwoAssetsW.listings 4).map Listing.mint = some 3 ∧
    lookupA buyForeignResult.tokenAccounts 8 = some ⟨30, 1, 7⟩ ∧
    lookupA buyForeignResult.tokenAccounts 960 = some ⟨30, 0, 960⟩ ∧
    lookupA buyForeignResult.tokenAccounts 15 = some ⟨3, 1, 15⟩ := by decide

/-! ## C5: cancel by a non-seller -/

/-- C5 (amended): a cancel whose signer differs from the listing's
recorded seller aborts — with no state change, the call failing — but the
error is the framework's `has_one` constraint violation, not a
program-defined `Unauthorized` code (the program's `ErrorCode` has no
such variant). -/
theorem cancel_wrong_seller_fails_has_one
    (ctx : RemoveCtx) (st : State) (na : TokenAccount) (l : Listing)
    (hna : lookupA st.tokenAccounts ctx.nft_account = some na)
    (hl : lookupA st.listings ctx.listing = some l)
    (hsig : l.seller ≠ ctx.seller) :
    remove_listed_nft ctx st = .error .constraintHasOne := by
  have hv : validateRemove ctx st = .error .constraintHasOne := by
    unfold validateRemove
    simp only [hna, hl]
    rw [if_pos hsig]
  unfold remove_listed_nft
  simp only [hv]

/-- Witness for the amended C5 at a concrete wrong-signer cancel. -/
theorem cancel_wrong_seller_fails_has_one_witness :
    remove_listed_nft ⟨6, 2, 4, 3, 15⟩ stActiveW = .error .constraintHasOne :=
  cancel_wrong_seller_fails_has_one ⟨6, 2, 4, 3, 15⟩ stActiveW ⟨3, 1, 5⟩ ⟨5, 10, 3, true⟩
    (by decide) (by decide) (by decide)

/-- Counterexample to C5 as stated: the wrong-signer cancel fails with
the framework's `constraintHasOne`, which is not any program-defined
error; no `Unauthorized` error exists in the program. -/
theorem cancel_wrong_seller_error_is_not_custom :
    remove_listed_nft ⟨6, 2, 4, 3, 15⟩ stActiveW = .error .constraintHasOne ∧
    Err.constraintHasOne ≠ .program .inactiveListing := by decide

/-! ## C6: cancel with a mismatched mint -/

/-- C6 (amended): a cancel whose `nft_account` mint differs from the
listing's recorded mint aborts, but with the framework's raw `constraint`
violation error, not a program-defined `MintMismatch` code (the program's
`ErrorCode` has no such variant). -/
theorem cancel_mint_mismatch_fails_constraint
    (ctx : RemoveCtx) (st : State) (na : TokenAccount) (l : Listing)
    (hna : lookupA st.tokenAccounts ctx.nft_account = some na)
    (hl : lookupA st.listings ctx.listing = some l)
    (hsig : l.seller = ctx.seller)
    (hmm : na.mint ≠ l.mint) :
    remove_listed_nft ctx st = .error .constraintRaw := by
  have hv : validateRemove ctx st = .error .constraintRaw := by
    unfold validateRemove
    simp only [hna, hl]
    rw [if_neg (by simp [hsig]), if_pos hmm]
  unfold remove_listed_nft
  simp only [hv]

/-- Witness for the amended C6 at a concrete mismatched-mint cancel. -/
theorem cancel_mint_mismatch_fails_constraint_witness :
    remove_listed_nft ⟨5, 2, 4, 30, 960⟩ stTwoAssetsW = .error .constraintRaw :=
  cancel_mint_mismatch_fails_constraint ⟨5, 2, 4, 30, 960⟩ stTwoAssetsW ⟨30, 1, 9⟩
    ⟨5, 10, 3, true⟩ (by decide) (by decide) (by decide) (by decide)

/-- Counterexample to C6 as stated: the mismatched-mint cancel fails with
the framework's raw constraint error, which is not any program-defined
error; no `MintMismatch` error exists in the program. -/
theorem cancel_mint_mismatch_error_is_not_custom :
    remove_listed_nft ⟨5, 2, 4, 30, 960⟩ stTwoAssetsW = .error .constraintRaw ∧
    Err.constraintRaw ≠ .program .inactiveListing := by decide

/-! ## C4: handling of the caller-supplied vault bump in `buy_nft` -/

/-- Counterexample to C4 as stated: the program never re-derives or
verifies the caller-supplied `vault_bump`.  With bump 7 (the canonical
bump for mint 3 being 3) the program-side account validation still
accepts the call, and the supplied bump is passed into the signer seeds;
the failure happens only downstream, in the ledger's signed-transfer
primitive, as `missingSignature` — not in any program check. -/
theorem buy_bump_not_verified_by_program :
    (validateBuy buyCtxW stActiveW).isOk = true ∧
    (7 : Nat) ≠ canonicalBump 3 ∧
    buy_nft 7 buyCtxW stActiveW = .error .missingSignature := by decide

/-- C4 (amended): `buy_nft` uses the caller-supplied `vault_bump` in the
signer seeds without any program-side verification; what forces
correctness is the ledger's re-derivation of the signing address from
those seeds, which must reproduce the validated vault address — so a buy
can only succeed when the supplied bump equals the canonical bump of the
vault derivation for the `nft_account`'s mint. -/
theorem buy_succeeds_only_with_canonical_bump
    (vault_bump : Nat) (ctx : BuyCtx) (st st' : State) (na : TokenAccount)
    (h : buy_nft vault_bump ctx st = .ok st')
    (hna : lookupA st.tokenAccounts ctx.nft_account = some na) :
    vault_bump = canonicalBump na.mint := by
  obtain ⟨l, na₀, stA, stB, hval, hact, hs, ht, hst⟩ := buy_nft_ok_shape h
  have hfacts := validateBuy_ok_facts hval
  have hna0 : na₀ = na := by
    have h2 := hfacts.2.1
    rw [hna] at h2
    injection h2 with h2
    exact h2.symm
  subst hna0
  have hmem := (tokenTransfer_ok_parts ht).2.2.2
  have hv : ctx.vault = vaultPda na₀.mint vault_bump := by simpa using hmem
  rw [hfacts.2.2] at hv
  exact (vaultPda_inj hv).2.symm

/-- Witness for the amended C4: the concrete successful buy used bump 3,
the canonical bump for mint 3. -/
theorem buy_succeeds_only_with_canonical_bump_witness :
    (3 : Nat) = canonicalBump 3 :=
  buy_succeeds_only_with_canonical_bump 3 buyCtxW stActiveW
    ((buy_nft 3 buyCtxW stActiveW).toOption.getD stActiveW) ⟨3, 1, 5⟩
    (by decide) (by decide)

/-! ## C10: cancel performs no listing-state check -/

theorem validateRemove_error_shape {ctx : RemoveCtx} {st : State} {e : Err}
    (h : validateRemove ctx st = .error e) (c : ErrorCode) : e ≠ .program c := by
  unfold validateRemove at h
  repeat' split at h
  all_goals (try (injection h with h))
  all_goals (try (subst h))
  all_goals simp_all

theorem tokenTransfer_error_shape {st : State} {src dst authority amount : Nat}
    {signers : List Pubkey} {e : Err}
    (h : tokenTransfer st src dst authority amount signers = .error e)
    (c : ErrorCode) : e ≠ .program c := by
  unfold tokenTransfer at h
  repeat' split at h
  all_goals (try (injection h with h))
  all_goals (try (subst h))
  all_goals simp_all

/-- C10: `remove_listed_nft` performs no check of the listing's
`is_active` flag: its outcome is bit-for-bit identical whatever the flag
holds, and it can never fail with the `InactiveListing` state error — its
only guards are the seller/mint account constraints and the vault
transfer itself. -/
theorem cancel_ignores_is_active :
    (∀ (ctx : RemoveCtx) (st : State) (b₁ b₂ : Bool),
      remove_listed_nft ctx (setActive st ctx.listing b₁) =
        remove_listed_nft ctx (setActive st ctx.listing b₂)) ∧
    (∀ (ctx : RemoveCtx) (st : State),
      remove_listed_nft ctx st ≠ .error (.program .inactiveListing)) := by
  constructor
  · intro ctx st b₁ b₂
    cases hl : lookupA st.listings ctx.listing with
    | none => simp [setActive, hl]
    | some l =>
      simp only [setActive, hl]
      unfold remove_listed_nft validateRemove tokenTransfer
      dsimp only
      simp only [lookupA_updA_self]
      cases hna : lookupA st.tokenAccounts ctx.nft_account with
      | none => rfl
      | some na =>
        simp only [hna]
        by_cases h1 : l.seller ≠ ctx.seller
        · simp only [if_pos h1]
        · simp only [if_neg h1]
          by_cases h2 : na.mint ≠ l.mint
          · simp only [if_pos h2]
          · simp only [if_neg h2]
            cases hdec : lookupA st.mintDecimals ctx.mint with
            | none => rfl
            | some d =>
              simp only [hdec]
              by_cases h3 : ctx.mint ≠ na.mint
              · simp only [if_pos h3]
              · simp only [if_neg h3]
                by_cases h4 : ctx.vault ≠ vaultPda na.mint (canonicalBump na.mint)
                · simp only [if_pos h4]
                · simp only [if_neg h4]
                  cases hva : lookupA st.tokenAccounts ctx.vault with
                  | none => rfl
                  | some va =>
                    simp only [hva]
                    by_cases h5 : va.mint ≠ na.mint
                    · simp only [if_pos h5]
                    · simp only [if_neg h5]
                      by_cases h6 : va.amount < 1
                      · simp only [if_pos h6]
                      · simp only [if_neg h6]
                        by_cases h7 : ctx.vault ≠ va.owner
                        · simp only [if_pos h7]
                        · simp only [if_neg h7]
                          by_cases h8 : ctx.vault ∉ [vaultPda na.mint (canonicalBump na.mint)]
                          · simp only [if_pos h8]
                          · simp only [if_neg h8]
                            simp [delA_updA, lamportsOf]
  · intro ctx st hcontra
    unfold remove_listed_nft at hcontra
    cases hv : validateRemove ctx st with
    | error e =>
      simp only [hv] at hcontra
      injection hcontra with hcontra
      exact validateRemove_error_shape hv _ hcontra
    | ok p =>
      obtain ⟨na, l⟩ := p
      simp only [hv] at hcontra
      cases htr : tokenTransfer st ctx.vault ctx.nft_account ctx.vault 1
          [vaultPda na.mint (canonicalBump na.mint)] with
      | error e =>
        simp only [htr] at hcontra
        injection hcontra with hcontra
        exact tokenTransfer_error_shape htr _ hcontra
      | ok st₁ =>
        simp only [htr] at hcontra
        exact Except.noConfusion hcontra

/-- Witness for C10 at a concrete cancel: flipping the stored flag does
not change the outcome. -/
theorem cancel_ignores_is_active_witness :
    remove_listed_nft removeCtxW (setActive stActiveW 4 true) =
      remove_listed_nft removeCtxW (setActive stActiveW 4 false) :=
  cancel_ignores_is_active.1 removeCtxW stActiveW true false

/-! ## C7: listing fields are immutable after creation -/

theorem tokenTransferChecked_ok_parts {st st' : State}
    {src mintArg dst authority amount decimals : Nat} {signers : List Pubkey}
    (h : tokenTransferChecked st src mintArg dst authority amount decimals signers = .ok st') :
    st'.listings = st.listings ∧ st'.lamports = st.lamports ∧
      st'.mintDecimals = st.mintDecimals := by
  unfold tokenTransferChecked at h
  repeat' split at h
  all_goals try exact Except.noConfusion h
  obtain ⟨a, b, c, _⟩ := tokenTransfer_ok_parts h
  exact ⟨a, b, c⟩

theorem validateList_ok_facts {ctx : ListNFTCtx} {st st₁ : State} {na : TokenAccount}
    (h : validateList ctx st = .ok (st₁, na)) :
    st₁.listings = st.listings ∧ lookupA st.listings ctx.listing = none := by
  unfold validateList at h
  cases hnl : lookupA st.listings ctx.listing with
  | some l =>
    simp only [hnl] at h
    exact Except.noConfusion h
  | none =>
    simp only [hnl] at h
    refine ⟨?_, rfl⟩
    split at h
    · exact Except.noConfusion h
    · cases hna : lookupA st.tokenAccounts ctx.nft_account with
      | none =>
        simp only [hna] at h
        exact Except.noConfusion h
      | some na₀ =>
        simp only [hna] at h
        cases hdec : lookupA st.mintDecimals ctx.mint with
        | none =>
          simp only [hdec] at h
          exact Except.noConfusion h
        | some d =>
          simp only [hdec] at h
          split at h
          · exact Except.noConfusion h
          · split at h
            · exact Except.noConfusion h
            · cases hva : lookupA st.tokenAccounts ctx.vault with
              | some va =>
                simp only [hva] at h
                split at h
                · exact Except.noConfusion h
                · split at h
                  · exact Except.noConfusion h
                  · injection h with h
                    injection h with h1 h2
                    rw [← h1]
              | none =>
                simp only [hva] at h
                split at h
                · exact Except.noConfusion h
                · injection h with h
                  injection h with h1 h2
                  rw [← h1]

/-- Full decomposition of a successful `list_nft` call. -/
theorem list_nft_ok_shape {ctx : ListNFTCtx} {price : Nat} {st st' : State}
    (h : list_nft ctx price st = .ok st') :
    ∃ st₁ na st₂,
      validateList ctx st = .ok (st₁, na) ∧
      tokenTransferChecked st₁ ctx.nft_account ctx.mint ctx.vault ctx.seller 1 0
        [ctx.seller] = .ok st₂ ∧
      st' = { st₂ with
                listings := updA st₂.listings ctx.listing ⟨ctx.seller, price, ctx.mint, true⟩ } := by
  unfold list_nft at h
  cases hv : validateList ctx st with
  | error e =>
    simp only [hv] at h
    exact Except.noConfusion h
  | ok p =>
    obtain ⟨st₁, na⟩ := p
    simp only [hv] at h
    cases ht : tokenTransferChecked st₁ ctx.nft_account ctx.mint ctx.vault ctx.seller 1 0
        [ctx.seller] with
    | error e =>
      simp only [ht] at h
      exact Except.noConfusion h
    | ok st₂ =>
      simp only [ht] at h
      injection h with h
      exact ⟨st₁, na, st₂, rfl, ht, h.symm⟩

/-- Full decomposition of a successful `remove_listed_nft` call. -/
theorem remove_listed_nft_ok_shape {ctx : RemoveCtx} {st st' : State}
    (h : remove_listed_nft ctx st = .ok st') :
    ∃ na l st₁,
      validateRemove ctx st = .ok (na, l) ∧
      tokenTransfer st ctx.vault ctx.nft_account ctx.vault 1
        [vaultPda na.mint (canonicalBump na.mint)] = .ok st₁ ∧
      st' = { st₁ with
                listings := delA st₁.listings ctx.listing,
                lamports := updA st₁.lamports ctx.seller
                  (lamportsOf st₁ ctx.seller + LISTING_RENT) } := by
  unfold remove_listed_nft at h
  cases hv : validateRemove ctx st with
  | error e =>
    simp only [hv] at h
    exact Except.noConfusion h
  | ok p =>
    obtain ⟨na, l⟩ := p
    simp only [hv] at h
    cases ht : tokenTransfer st ctx.vault ctx.nft_account ctx.vault 1
        [vaultPda na.mint (canonicalBump na.mint)] with
    | error e =>
      simp only [ht] at h
      exact Except.noConfusion h
    | ok st₁ =>
      simp only [ht] at h
      injection h with h
      exact ⟨na, l, st₁, rfl, ht, h.symm⟩

/-- C7: across any successful operation, a listing record present before
and after has unchanged `seller`, `price` and `mint`; the record is
either untouched or has only its `is_active` flag set to `false` (which
only `buy_nft` does). -/
theorem listing_fields_immutable
    (op : Op) (st st' : State) (a : Pubkey) (l l' : Listing)
    (hstep : step op st = .ok st')
    (hl : lookupA st.listings a = some l)
    (hl' : lookupA st'.listings a = some l') :
    l'.seller = l.seller ∧ l'.price = l.price ∧ l'.mint = l.mint ∧
      (l' = l ∨ l' = { l with is_active := false }) := by
  cases op with
  | listOp ctx price =>
    obtain ⟨st₁, na, st₂, hv, ht, hst⟩ := list_nft_ok_shape hstep
    have hfacts := validateList_ok_facts hv
    have hne : ctx.listing ≠ a := by
      intro he
      rw [← he, hfacts.2] at hl
      exact Option.noConfusion hl
    have hproj : st'.listings = updA st₂.listings ctx.listing ⟨ctx.seller, price, ctx.mint, true⟩ := by
      rw [hst]
    rw [hproj, lookupA_updA_ne _ _ hne, (tokenTransferChecked_ok_parts ht).1, hfacts.1, hl]
      at hl'
    injection hl' with hl'
    subst hl'
    exact ⟨rfl, rfl, rfl, Or.inl rfl⟩
  | removeOp ctx =>
    obtain ⟨na, lr, st₁, hv, ht, hst⟩ := remove_listed_nft_ok_shape hstep
    have hproj : st'.listings = delA st₁.listings ctx.listing := by rw [hst]
    by_cases ha : a = ctx.listing
    · rw [hproj, ha, lookupA_delA_self] at hl'
      exact Option.noConfusion hl'
    · rw [hproj, lookupA_delA_ne _ (Ne.symm ha), (tokenTransfer_ok_parts ht).1, hl] at hl'
      injection hl' with hl'
      subst hl'
      exact ⟨rfl, rfl, rfl, Or.inl rfl⟩
  | buyOp vb ctx =>
    obtain ⟨lb, na, stA, stB, hv, hact, hs, ht, hst⟩ := buy_nft_ok_shape hstep
    have hproj : st'.listings = updA stB.listings ctx.listing { lb with is_active := false } := by
      rw [hst]
    have hlstB : stB.listings = st.listings := by
      rw [(tokenTransfer_ok_parts ht).1, (systemTransfer_ok_parts hs).1]
    by_cases ha : a = ctx.listing
    · have h1 : lookupA st.listings ctx.listing = some l := by
        rw [← ha]
        exact hl
      have h2 := (validateBuy_ok_facts hv).1
      rw [h1] at h2
      injection h2 with h2
      rw [hproj, ha, lookupA_updA_self] at hl'
      injection hl' with hl'
      subst hl'
      rw [← h2]
      exact ⟨rfl, rfl, rfl, Or.inr rfl⟩
    · rw [hproj, lookupA_updA_ne _ _ (Ne.symm ha), hlstB, hl] at hl'
      injection hl' with hl'
      subst hl'
      exact ⟨rfl, rfl, rfl, Or.inl rfl⟩

/-- Witness for C7 at a concrete successful buy: only `is_active`
changed. -/
theorem listing_fields_immutable_witness :
    (⟨5, 10, 3, false⟩ : Listing).seller = (⟨5, 10, 3, true⟩ : Listing).seller ∧
    (⟨5, 10, 3, false⟩ : Listing).price = (⟨5, 10, 3, true⟩ : Listing).price ∧
    (⟨5, 10, 3, false⟩ : Listing).mint = (⟨5, 10, 3, true⟩ : Listing).mint ∧
    ((⟨5, 10, 3, false⟩ : Listing) = ⟨5, 10, 3, true⟩ ∨
      (⟨5, 10, 3, false⟩ : Listing) = { (⟨5, 10, 3, true⟩ : Listing) with is_active := false }) :=
  listing_fields_immutable (.buyOp 3 buyCtxW) stActiveW
    ((buy_nft 3 buyCtxW stActiveW).toOption.getD stActiveW) 4 ⟨5, 10, 3, true⟩
    ⟨5, 10, 3, false⟩ (by decide) (by decide) (by decide)

/-! ## C8: list followed by cancel is a round trip -/

/-- C8: from any ledger in which the seller holds `n ≥ 1` units of an
indivisible asset, no listing record occupies the chosen address, the
asset's vault does not yet exist and the seller can pay the deposits,
`list_nft` succeeds, and an immediate `remove_listed_nft` by the same
seller succeeds, restores the seller's asset balance to its pre-list
value, leaves no listing record, and returns the listing record's storage
deposit to the seller. -/
theorem list_then_cancel_roundtrip
    (seller nftA mintA listingA price n L : Nat) (st : State)
    (hna : lookupA st.tokenAccounts nftA = some ⟨mintA, n, seller⟩)
    (hn : 1 ≤ n)
    (hdec : lookupA st.mintDecimals mintA = some 0)
    (hnl : lookupA st.listings listingA = none)
    (hvault : lookupA st.tokenAccounts (vaultPda mintA (canonicalBump mintA)) = none)
    (hlam : lookupA st.lamports seller = some L)
    (hr1 : ¬ L < LISTING_RENT)
    (hr2 : ¬ L - LISTING_RENT < VAULT_RENT)
    (hne : nftA ≠ vaultPda mintA (canonicalBump mintA)) :
    ∃ st₁ st₂,
      list_nft ⟨listingA, seller, nftA, mintA, vaultPda mintA (canonicalBump mintA)⟩ price st
        = .ok st₁ ∧
      remove_listed_nft ⟨seller, nftA, listingA, mintA, vaultPda mintA (canonicalBump mintA)⟩ st₁
        = .ok st₂ ∧
      lookupA st₂.tokenAccounts nftA = some ⟨mintA, n, seller⟩ ∧
      lookupA st₂.listings listingA = none ∧
      lamportsOf st₂ seller = lamportsOf st₁ seller + LISTING_RENT := by
  have hn' : ¬ (n < 1) := by omega
  have lup1 : ∀ (l : List (Nat × TokenAccount)) (v : TokenAccount),
      lookupA (updA l (vaultPda mintA (canonicalBump mintA)) v) nftA = lookupA l nftA :=
    fun l v => lookupA_updA_ne l v (Ne.symm hne)
  have lup2 : ∀ (l : List (Nat × TokenAccount)) (v : TokenAccount),
      lookupA (updA l nftA v) (vaultPda mintA (canonicalBump mintA)) =
        lookupA l (vaultPda mintA (canonicalBump mintA)) :=
    fun l v => lookupA_updA_ne l v hne
  apply Exists.intro
  apply Exists.intro
  refine ⟨?_, ?_, ?_, ?_, ?_⟩
  · simp [list_nft, validateList, tokenTransferChecked, tokenTransfer, hnl, hna, hdec,
      hlam, hvault, lamportsOf, lookupA_updA_self, lup1, lup2, hr1, hr2, hn']
    rfl
  · simp [remove_listed_nft, validateRemove, tokenTransfer, hdec, lamportsOf,
      lookupA_updA_self, lup1, lup2]
    rfl
  · simp [lookupA_updA_self, lup1, lup2, Nat.sub_add_cancel hn]
  · simp [lookupA_delA_self]
  · simp [lamportsOf, lookupA_updA_self, lup1, lup2]

/-- Witness for C8 at a concrete seller / asset / price. -/
theorem list_then_cancel_roundtrip_witness :
    ∃ st₁ st₂,
      list_nft ⟨4, 1, 2, 3, vaultPda 3 (canonicalBump 3)⟩ 10 stRoundW = .ok st₁ ∧
      remove_listed_nft ⟨1, 2, 4, 3, vaultPda 3 (canonicalBump 3)⟩ st₁ = .ok st₂ ∧
      lookupA st₂.tokenAccounts 2 = some ⟨3, 1, 1⟩ ∧
      lookupA st₂.listings 4 = none ∧
      lamportsOf st₂ 1 = lamportsOf st₁ 1 + LISTING_RENT :=
  list_then_cancel_roundtrip 1 2 3 4 10 1 300 stRoundW (by decide) (by decide) (by decide)
    (by decide) (by decide) (by decide) (by decide) (by decide) (by decide)

end FashionMarket
